import Mathlib

/-!
Verification of the stigmergic pheromone-store substrate
(`src/environment/pheromone_store.py`, `src/environment/guardrails.py`,
`src/environment/decay.py`), the scheduler loop (`src/stigmergy/loop.py`)
and the agent decision rules (`src/agents/*.py`).

JSON entry dictionaries are embedded as Lean records whose fields are all
optional (`Option _`), `none` standing for an absent key.  Python floats are
modelled as real numbers; namespace files (JSON objects) are association
lists `List (String × entry)` preserving insertion order.  Timestamps are
opaque strings supplied by the caller (`now`), standing for
`guardrails.utc_timestamp()`.
-/

namespace Stigmergy

/-- Association-list lookup, mirroring Python `dict.get` on a JSON object. -/
def alistFind {α : Type} (ns : List (String × α)) (k : String) : Option α :=
  (ns.find? (fun p => p.1 == k)).map (·.2)

/-- Association-list store, mirroring Python `payload[file_key] = entry`:
replace the binding in place when the key exists, append otherwise. -/
def alistInsert {α : Type} (ns : List (String × α)) (k : String) (v : α) :
    List (String × α) :=
  if (ns.find? (fun p => p.1 == k)).isSome then
    ns.map (fun p => if p.1 == k then (k, v) else p)
  else
    ns ++ [(k, v)]

/-! ## decay.py -/

/-- `_clamp_unit`: clamp a value to the [0, 1] interval. -/
noncomputable def clamp_unit (value : ℝ) : ℝ :=
  max 0 (min 1 value)

/-- The two decay types accepted by `decay_intensity` (any other string makes
the Python function raise `ValueError` before touching any state). -/
inductive DecayType
  | exponential
  | linear
deriving DecidableEq, Repr

/-- `decay_intensity(value, decay_type, decay_rate)`.  The source raises on a
negative rate; theorems therefore carry a `0 ≤ decay_rate` hypothesis. -/
noncomputable def decay_intensity (value : ℝ) (decayType : DecayType)
    (decayRate : ℝ) : ℝ :=
  match decayType with
  | .exponential => clamp_unit (clamp_unit value * Real.exp (-decayRate))
  | .linear => clamp_unit (clamp_unit value - decayRate)

/-- `decay_inhibition(value, inhibition_decay_rate)`. -/
noncomputable def decay_inhibition (value : ℝ) (inhibitionDecayRate : ℝ) : ℝ :=
  clamp_unit (clamp_unit value * Real.exp (-inhibitionDecayRate))

/-! ## Status entries -/

/-- One entry of the `status` namespace (`status.json`).  Every field is
optional because the JSON dictionaries are schemaless; `metadata` is kept
opaque.  `current_tick` is a transient field that callers may attach and that
`_finalize_status_entry` pops. -/
structure StatusEntry where
  status : Option String := none
  retry_count : Option Int := none
  inhibition : Option ℝ := none
  lock_owner : Option String := none
  lock_acquired_tick : Option Int := none
  previous_status : Option String := none
  current_tick : Option Int := none
  updated_by : Option String := none
  created_by : Option String := none
  timestamp : Option String := none
  metadata : Option String := none

/-- Python truthiness of the entry dictionary (`if not status_entry`): a dict
is falsy iff it has no keys. -/
def StatusEntry.isEmptyDict (e : StatusEntry) : Bool :=
  e.status.isNone && e.retry_count.isNone && e.inhibition.isNone &&
  e.lock_owner.isNone && e.lock_acquired_tick.isNone &&
  e.previous_status.isNone && e.current_tick.isNone && e.updated_by.isNone &&
  e.created_by.isNone && e.timestamp.isNone && e.metadata.isNone

/-- Python `dict.update(fields)` on a status entry: a field present in
`fields` overrides the previous value, an absent one is kept. -/
def mergeFields (prev fields : StatusEntry) : StatusEntry where
  status := fields.status.or prev.status
  retry_count := fields.retry_count.or prev.retry_count
  inhibition := fields.inhibition.or prev.inhibition
  lock_owner := fields.lock_owner.or prev.lock_owner
  lock_acquired_tick := fields.lock_acquired_tick.or prev.lock_acquired_tick
  previous_status := fields.previous_status.or prev.previous_status
  current_tick := fields.current_tick.or prev.current_tick
  updated_by := fields.updated_by.or prev.updated_by
  created_by := fields.created_by.or prev.created_by
  timestamp := fields.timestamp.or prev.timestamp
  metadata := fields.metadata.or prev.metadata

/-! ## guardrails.py -/

/-- The configuration slice `Guardrails` reads (`max_tokens_total` is only
used by the gateway and the loop, modelled separately). -/
structure Guardrails where
  max_retry_count : Int
  scope_lock_ttl : Int

/-- `enforce_retry_limit`: return `true` when a file should be skipped. -/
def Guardrails.enforce_retry_limit (g : Guardrails) (retryCount : Int) : Bool :=
  decide (g.max_retry_count < retryCount)

/-- `acquire_scope_lock`: attach lock ownership metadata. -/
def Guardrails.acquire_scope_lock (e : StatusEntry) (agentId : String)
    (currentTick : Int) : StatusEntry :=
  { e with lock_owner := some agentId, lock_acquired_tick := some currentTick }

/-- `release_scope_lock`: pop both lock fields when the lock is unowned or
owned by the caller; leave the entry untouched otherwise. -/
def Guardrails.release_scope_lock (e : StatusEntry) (agentId : String) :
    StatusEntry :=
  match e.lock_owner with
  | none => { e with lock_owner := none, lock_acquired_tick := none }
  | some owner =>
      if owner == agentId then
        { e with lock_owner := none, lock_acquired_tick := none }
      else e

/-- `enforce_scope_lock`: `true` means the mutation is allowed; `false`
models the raised `ScopeLockError`.  A missing or empty (falsy) status entry
allows the mutation; an `in_progress` entry with a truthy `lock_owner`
different from the caller blocks it. -/
def Guardrails.enforce_scope_lock (agentId : String)
    (statusEntry : Option StatusEntry) : Bool :=
  match statusEntry with
  | none => true
  | some e =>
      if e.isEmptyDict then true
      else if e.status == some "in_progress" then
        match e.lock_owner with
        | none => true
        | some owner => owner == "" || owner == agentId
      else true

/-- The TTL-release guard of `enforce_scope_lock_ttl`: an `in_progress` entry
whose lock fields are both present and whose lock age exceeds the TTL. -/
def Guardrails.ttlExpired (g : Guardrails) (currentTick : Int)
    (e : StatusEntry) : Bool :=
  e.status == some "in_progress" &&
  e.lock_owner.isSome &&
  (match e.lock_acquired_tick with
   | some lockTick => decide (g.scope_lock_ttl < currentTick - lockTick)
   | none => false)

/-- The per-entry mutation of `enforce_scope_lock_ttl`: demote to `pending`,
bump `retry_count`, stamp `system_ttl`, clear the lock fields. -/
def Guardrails.ttlRelease (now : String) (e : StatusEntry) : StatusEntry :=
  { e with
    previous_status := e.status
    status := some "pending"
    retry_count := some (e.retry_count.getD 0 + 1)
    timestamp := some now
    updated_by := some "system_ttl"
    lock_owner := none
    lock_acquired_tick := none }

/-- `enforce_scope_lock_ttl(status_data, current_tick)`: release every
expired zombie lock, returning the new namespace and the released keys in
iteration order. -/
def Guardrails.enforce_scope_lock_ttl (g : Guardrails) (currentTick : Int)
    (now : String) (ns : List (String × StatusEntry)) :
    List (String × StatusEntry) × List String :=
  (ns.map (fun p =>
      if g.ttlExpired currentTick p.2 then (p.1, Guardrails.ttlRelease now p.2)
      else p),
   (ns.filter (fun p => g.ttlExpired currentTick p.2)).map (·.1))

/-- The two audited mutation kinds of `stamp_trace`. -/
inductive TraceAction
  | write
  | update
deriving DecidableEq, Repr

/-- `stamp_trace(payload, agent_id, action)`: set `timestamp`, plus
`created_by` (setdefault) on write or `updated_by` on update. -/
def Guardrails.stamp_trace (e : StatusEntry) (agentId : String)
    (action : TraceAction) (now : String) : StatusEntry :=
  match action with
  | .write => { e with timestamp := some now,
                       created_by := e.created_by.or (some agentId) }
  | .update => { e with timestamp := some now, updated_by := some agentId }

/-! ## pheromone_store.py — status-namespace mutations -/

/-- One audit event of `audit_log.jsonl`.  Timestamps, `fields_changed` and
`previous_values` payloads are abstracted away; the claims only consult which
events exist, for which key, and by which system actor. -/
structure AuditEvent where
  agent : String
  pheromone_type : String
  file_key : String
  action : String
deriving DecidableEq, Repr

namespace PheromoneStore

open Stigmergy

/-- `_finalize_status_entry` (the `pheromone_type == "status"` branch): pop
the transient `current_tick`, force `retry_count` to the max of the previous
and candidate values, acquire the scope lock when the candidate status is
`in_progress` (else release it), and coerce the status to `skipped` when the
retry limit is exceeded. -/
def finalize_status_entry (g : Guardrails) (prev cand : StatusEntry)
    (agentId : String) : StatusEntry :=
  let currentTick := cand.current_tick.getD 0
  let cand1 := { cand with current_tick := none }
  let statusValue := cand1.status
  let previousRetry := prev.retry_count.getD 0
  let candidateRetry := cand1.retry_count.getD previousRetry
  let cand2 := { cand1 with retry_count := some (max previousRetry candidateRetry) }
  let cand3 :=
    if statusValue == some "in_progress" then
      Guardrails.acquire_scope_lock cand2 agentId currentTick
    else
      Guardrails.release_scope_lock cand2 agentId
  if g.enforce_retry_limit (max previousRetry candidateRetry) then
    { cand3 with status := some "skipped" }
  else cand3

/-- The candidate entry a `write` (full overwrite) or `update` (merge on top
of the previous entry) submits to the finalizer. -/
def statusCandidate (action : TraceAction) (prev payload : StatusEntry) :
    StatusEntry :=
  match action with
  | .write => payload
  | .update => mergeFields prev payload

/-- The shared `write`/`update` path for the `status` namespace: enforce the
scope lock against the stored entry, build the candidate, run the finalizer,
stamp the trace and store the result.  `.error` models the raised
`ScopeLockError`, which leaves the file untouched. -/
def status_put (g : Guardrails) (ns : List (String × StatusEntry))
    (fileKey : String) (payload : StatusEntry) (agentId now : String)
    (action : TraceAction) : Except String (List (String × StatusEntry)) :=
  if Guardrails.enforce_scope_lock agentId (alistFind ns fileKey) then
    let prev := (alistFind ns fileKey).getD {}
    let cand := statusCandidate action prev payload
    let finalized := finalize_status_entry g prev cand agentId
    let stamped := Guardrails.stamp_trace finalized agentId action now
    .ok (alistInsert ns fileKey stamped)
  else
    .error ("Scope lock violation for " ++ fileKey)

/-- `write("status", file_key, data, agent_id)`. -/
def status_write (g : Guardrails) (ns : List (String × StatusEntry))
    (fileKey : String) (data : StatusEntry) (agentId now : String) :
    Except String (List (String × StatusEntry)) :=
  status_put g ns fileKey data agentId now .write

/-- `update("status", file_key, agent_id, **fields)`. -/
def status_update (g : Guardrails) (ns : List (String × StatusEntry))
    (fileKey : String) (fields : StatusEntry) (agentId now : String) :
    Except String (List (String × StatusEntry)) :=
  status_put g ns fileKey fields agentId now .update

/-- The per-entry retry-requeue guard of `maintain_status`. -/
def requeueCond (e : StatusEntry) : Bool :=
  e.status == some "retry"

/-- The per-entry retry-requeue mutation of `maintain_status`: `retry`
becomes `pending`, preserving the old status in `previous_status` and
stamping `system_retry`. -/
def requeueEntry (now : String) (e : StatusEntry) : StatusEntry :=
  { e with
    previous_status := e.status
    status := some "pending"
    timestamp := some now
    updated_by := some "system_retry" }

/-- The result of one `maintain_status` pass. -/
structure MaintainResult where
  ns : List (String × StatusEntry)
  ttl_released : List String
  retry_requeued : List String
  events : List AuditEvent

/-- `maintain_status(current_tick)`: TTL release of zombie locks followed by
the retry→pending requeue, performed atomically on the `status` file; one
audit event per released and per requeued key; the returned key lists are
sorted. -/
def maintain_status (g : Guardrails) (currentTick : Int) (now : String)
    (ns : List (String × StatusEntry)) : MaintainResult :=
  let afterTtl := (g.enforce_scope_lock_ttl currentTick now ns).1
  let released := (g.enforce_scope_lock_ttl currentTick now ns).2
  let ttlEvents := released.map
    (fun k => AuditEvent.mk "system_ttl" "status" k "update")
  let afterRequeue := afterTtl.map (fun p =>
    if requeueCond p.2 then (p.1, requeueEntry now p.2) else p)
  let requeued := (afterTtl.filter (fun p => requeueCond p.2)).map (·.1)
  let retryEvents := requeued.map
    (fun k => AuditEvent.mk "system_retry" "status" k "update")
  { ns := afterRequeue
    ttl_released := released.insertionSort (· ≤ ·)
    retry_requeued := requeued.insertionSort (· ≤ ·)
    events := ttlEvents ++ retryEvents }

/-- The effect of one `maintain_status` pass on a single entry: the TTL
step followed by the retry-requeue step (proved equal to the namespace
produced by `maintain_status` in `maintain_status_ns_eq`). -/
def maintainEntry (g : Guardrails) (currentTick : Int) (now : String)
    (e : StatusEntry) : StatusEntry :=
  if requeueCond (if g.ttlExpired currentTick e then
      Guardrails.ttlRelease now e else e) then
    requeueEntry now (if g.ttlExpired currentTick e then
      Guardrails.ttlRelease now e else e)
  else
    (if g.ttlExpired currentTick e then Guardrails.ttlRelease now e else e)

/-- The per-entry step of `apply_decay_inhibition`: decay a numeric positive
inhibition, skipping the write (and the audit event) when the decayed value
equals the prior one. -/
noncomputable def inhibitionStep (rate : ℝ) (now : String) (e : StatusEntry) :
    StatusEntry × Bool :=
  match e.inhibition with
  | none => (e, false)
  | some v =>
      if v ≤ 0 then (e, false)
      else
        let updated := decay_inhibition v rate
        if updated = v then (e, false)
        else
          ({ e with inhibition := some updated, timestamp := some now,
                    updated_by := some "system_decay" }, true)

/-- `apply_decay_inhibition()`: apply the inhibition decay to every status
entry with a numeric positive inhibition, emitting one audit event per
actually-changed entry. -/
noncomputable def apply_decay_inhibition (rate : ℝ) (now : String)
    (ns : List (String × StatusEntry)) :
    List (String × StatusEntry) × List AuditEvent :=
  (ns.map (fun p => (p.1, (inhibitionStep rate now p.2).1)),
   (ns.filter (fun p => (inhibitionStep rate now p.2).2)).map
     (fun p => AuditEvent.mk "system_decay" "status" p.1 "update"))

/-- The entry part of `inhibitionStep`. -/
noncomputable def inhibitionEntry (rate : ℝ) (now : String)
    (e : StatusEntry) : StatusEntry :=
  (inhibitionStep rate now e).1

end PheromoneStore

/-! ## Task entries and apply_decay("tasks") -/

/-- One entry of the `tasks` namespace (`tasks.json`).  `intensity = none`
stands for an absent or non-numeric value (the `isinstance` guard in
`apply_decay` skips both); the discovery payload fields not consulted by the
verified operations are collapsed into `patterns_found` and the stamps. -/
structure TaskEntry where
  intensity : Option ℝ := none
  patterns_found : List String := []
  created_by : Option String := none
  updated_by : Option String := none
  timestamp : Option String := none

/-- Python truthiness of a task dictionary (`if not task_entry`). -/
def TaskEntry.isEmptyDict (e : TaskEntry) : Bool :=
  e.intensity.isNone && e.patterns_found.isEmpty && e.created_by.isNone &&
  e.updated_by.isNone && e.timestamp.isNone

namespace PheromoneStore

/-- `status_data.get(file_key, {}).get("status", "pending")` in
`apply_decay`. -/
def statusValueOf (statusNs : List (String × StatusEntry)) (k : String) :
    String :=
  ((alistFind statusNs k).bind (·.status)).getD "pending"

/-- The per-entry step of `apply_decay("tasks")` given the looked-up status
value: decay the intensity of a `pending`/`retry` task, skipping the write
(and the audit event) when the decayed value equals the prior one. -/
noncomputable def decayTaskStep (decayType : DecayType) (rate : ℝ)
    (now : String) (statusValue : String) (e : TaskEntry) :
    TaskEntry × Bool :=
  if statusValue = "pending" ∨ statusValue = "retry" then
    match e.intensity with
    | none => (e, false)
    | some v =>
        let updated := decay_intensity v decayType rate
        if updated = v then (e, false)
        else
          ({ e with intensity := some updated, timestamp := some now,
                    updated_by := some "system_decay" }, true)
  else (e, false)

/-- `apply_decay("tasks")`: decay every task whose status (defaulting to
`pending`) is `pending` or `retry`, emitting one audit event per
actually-changed task. -/
noncomputable def apply_decay (decayType : DecayType) (rate : ℝ)
    (now : String) (tasks : List (String × TaskEntry))
    (statusNs : List (String × StatusEntry)) :
    List (String × TaskEntry) × List AuditEvent :=
  (tasks.map (fun p =>
      (p.1, (decayTaskStep decayType rate now (statusValueOf statusNs p.1) p.2).1)),
   (tasks.filter (fun p =>
      (decayTaskStep decayType rate now (statusValueOf statusNs p.1) p.2).2)).map
     (fun p => AuditEvent.mk "system_decay" "tasks" p.1 "update"))

/-- The entry part of `decayTaskStep` at a given key. -/
noncomputable def decayTaskAt (decayType : DecayType) (rate : ℝ)
    (now : String) (statusNs : List (String × StatusEntry)) (k : String)
    (e : TaskEntry) : TaskEntry :=
  (decayTaskStep decayType rate now (statusValueOf statusNs k) e).1

end PheromoneStore

/-! ## pheromone_store.py — query filters -/

/-- A JSON scalar stored in an entry field.  `bool` is kept separate because
Python `bool` passes the `isinstance(·, (int, float))` guard.  List-valued
stored fields never meet the verified filter paths and are not modelled. -/
inductive Value
  | num (q : ℚ)
  | str (s : String)
  | bool (b : Bool)
  | null
deriving DecidableEq, Repr

/-- A filter argument: a scalar, or the set/list accepted by the `in`
operator. -/
inductive FilterValue
  | val (v : Value)
  | set (vs : List Value)
deriving DecidableEq, Repr

/-- A generic entry for `query`: the raw JSON dictionary. -/
abbrev JsonEntry := List (String × Value)

namespace PheromoneStore

/-- Split a character list at the last occurrence of `__` (Python
`rsplit("__", 1)` without the matched separator); `none` when the list
contains no `__`. -/
def splitLastDunder : List Char → Option (List Char × List Char)
  | [] => none
  | c :: rest =>
      match splitLastDunder rest with
      | some (before, after) => some (c :: before, after)
      | none =>
          match c, rest with
          | '_', '_' :: rest2 => some ([], rest2)
          | _, _ => none

/-- `_parse_filter`: split on the last `__`; a name without `__` means the
`eq` operator. -/
def parse_filter (filterName : String) : String × String :=
  match splitLastDunder filterName.toList with
  | none => (filterName, "eq")
  | some (before, after) => (String.mk before, String.mk after)

/-- `isinstance(value, (int, float))` — numbers and booleans pass. -/
def isNumeric : Value → Bool
  | .num _ => true
  | .bool _ => true
  | _ => false

/-- Python `float(value)` on the values reachable in `_compare_numeric`:
numbers and booleans convert; a set/list or `None` raises; numeric strings,
which Python would parse, never reach this path in the verified claims and
are modelled as errors. -/
def pyFloat : FilterValue → Except String ℚ
  | .val (.num q) => .ok q
  | .val (.bool b) => .ok (if b then 1 else 0)
  | _ => .error "float conversion failed"

/-- `_compare_numeric(current, expected, op)`: the `isinstance` guard fails
closed on a non-numeric stored value before the expected value is even
converted; otherwise compare as floats. -/
def compare_numeric (current : Value) (expected : FilterValue) (op : String) :
    Except String Bool :=
  if !isNumeric current then .ok false
  else
    match pyFloat (.val current) with
    | .error e => .error e
    | .ok c =>
        match pyFloat expected with
        | .error e => .error e
        | .ok x =>
            if op = "gt" then .ok (decide (x < c))
            else if op = "gte" then .ok (decide (x ≤ c))
            else if op = "lt" then .ok (decide (c < x))
            else if op = "lte" then .ok (decide (c ≤ x))
            else .error ("Unsupported numeric operator: " ++ op)

/-- One iteration of the `_matches_filters` loop: `some false` excludes the
entry, `some true` keeps iterating.  An operator suffix outside
`{eq, gt, gte, lt, lte, in}` matches none of the `if` arms and falls
through, keeping the entry. -/
def matchesOneFilter (fileKey : String) (entry : JsonEntry)
    (filterName : String) (expected : FilterValue) : Except String Bool :=
  let parsed := parse_filter filterName
  let fieldName := parsed.1
  let operator := parsed.2
  let currentValue :=
    if fieldName = "file_key" then Value.str fileKey
    else (alistFind entry fieldName).getD Value.null
  if operator = "eq" then
    match expected with
    | .val v => .ok (decide (currentValue = v))
    | .set _ => .ok false
  else if operator = "gt" ∨ operator = "gte" ∨ operator = "lt" ∨
      operator = "lte" then
    compare_numeric currentValue expected operator
  else if operator = "in" then
    match expected with
    | .set vs => .ok (decide (currentValue ∈ vs))
    | .val _ => .error "argument of type is not iterable"
  else
    .ok true

/-- `_matches_filters`: AND-composition over the filter dictionary; the
first failing filter excludes the entry. -/
def matches_filters (fileKey : String) (entry : JsonEntry)
    (filters : List (String × FilterValue)) : Except String Bool :=
  match filters with
  | [] => .ok true
  | (name, expected) :: rest =>
      match matchesOneFilter fileKey entry name expected with
      | .error e => .error e
      | .ok false => .ok false
      | .ok true => matches_filters fileKey entry rest

end PheromoneStore

/-! ## stigmergy/loop.py — scheduler stop conditions -/

/-- What `run_loop` observes at the end of one tick: whether any agent
acted, whether the status snapshot is non-empty with every entry terminal
(`_all_terminal`), and the LLM client counters.  `total_cost_usd` is part of
the observation record because the client tracks it, which makes it visible
that the loop body never consults it. -/
structure TickObs where
  any_acted : Bool
  all_terminal : Bool
  total_tokens : Int
  total_cost_usd : ℚ

/-- The tick recursion of `run_loop` (lines 81–123 of `stigmergy/loop.py`):
update the idle counter, then evaluate the stop conditions in order
(`all_terminal`, then the token comparison, then `idle_cycles`), falling
through to `max_ticks`.  `obs t` is the observation the loop would make at
tick `t`. -/
def runLoopFrom (idleCyclesToStop : Nat) (maxTokensTotal : Int)
    (obs : Nat → TickObs) : Nat → Nat → Nat → String
  | 0, _, _ => "max_ticks"
  | remaining + 1, tick, idleCycles =>
      let o := obs tick
      let idleCycles1 := if o.any_acted then 0 else idleCycles + 1
      if o.all_terminal then "all_terminal"
      else if maxTokensTotal ≤ o.total_tokens then "budget_exhausted"
      else if idleCyclesToStop ≤ idleCycles1 then "idle_cycles"
      else runLoopFrom idleCyclesToStop maxTokensTotal obs remaining (tick + 1)
             idleCycles1

/-- The `stop_reason` computed by `run_loop` for a given per-tick observation
stream. -/
def run_loop_stop_reason (maxTicks idleCyclesToStop : Nat)
    (maxTokensTotal : Int) (obs : Nat → TickObs) : String :=
  runLoopFrom idleCyclesToStop maxTokensTotal obs maxTicks 0 0

/-! ## agents/validator.py -/

/-- The thresholds `Validator.execute` reads from the config. -/
structure ValidatorThresholds where
  high : ℝ
  low : ℝ
  max_retry_count : Int

/-- The disposition `Validator.execute` returns on its success path (and
that `deposit` then persists verbatim into the quality and status
namespaces). -/
structure ValidatorDecision where
  status : String
  updated_confidence : ℝ
  retry_count : Int
  inhibition : ℝ

namespace Validator

/-- `Validator.execute` on a tested file (success path; the VCS side effects
carry no data consulted by the claims): auto-validate at high confidence,
escalate at medium confidence, otherwise roll back, decrement the
confidence, and either retry or skip depending on the retry cap. -/
noncomputable def execute (th : ValidatorThresholds) (confidence : ℝ)
    (retryCount : Int) (inhibition : ℝ) : ValidatorDecision :=
  if th.high ≤ confidence then
    ValidatorDecision.mk "validated" (min 1 (confidence + 1/10)) retryCount
      inhibition
  else if th.low ≤ confidence then
    ValidatorDecision.mk "needs_review" confidence retryCount inhibition
  else
    let updatedConfidence := max 0 (confidence - 2/10)
    let nextRetryCount := retryCount + 1
    let nextStatus :=
      if nextRetryCount ≤ th.max_retry_count then "retry" else "skipped"
    let nextInhibition :=
      if nextStatus = "retry" then inhibition + 5/10 else inhibition
    ValidatorDecision.mk nextStatus updatedConfidence nextRetryCount
      nextInhibition

end Validator

/-! ## agents/tester.py — per-module pytest confidence -/

/-- The `tests_total` / `tests_passed` / `tests_failed` triple a test run
reports. -/
structure TestStats where
  tests_total : Nat
  tests_passed : Nat
  tests_failed : Nat
deriving DecidableEq, Repr

namespace Tester

/-- `_parse_pytest_summary`: totals from the parsed `passed` / `failed` /
`error` counters of the pytest output. -/
def parse_pytest_summary (passed failed errors : Nat) : TestStats :=
  TestStats.mk (passed + failed + errors) passed (failed + errors)

/-- The zero-total normalization at the end of `_run_pytest_for_file`: an
empty summary counts as one synthetic test, passed or failed according to
the exit code. -/
def normalizeZeroTotal (s : TestStats) (returncodeZero : Bool) : TestStats :=
  if s.tests_total = 0 then
    if returncodeZero then TestStats.mk 1 1 0 else TestStats.mk 1 0 1
  else s

/-- `_run_pytest_for_file`, reduced to its statistics: parse the summary,
then normalize a zero total. -/
def run_pytest_for_file (passed failed errors : Nat)
    (returncodeZero : Bool) : TestStats :=
  normalizeZeroTotal (parse_pytest_summary passed failed errors) returncodeZero

/-- The confidence computation of `Tester.execute` for the branch where a
test module was found (`0.5 if tests_total == 0 else
tests_passed / tests_total`, as exact rational division). -/
def pytest_confidence (s : TestStats) : ℚ :=
  if s.tests_total = 0 then 1/2
  else (s.tests_passed : ℚ) / (s.tests_total : ℚ)

end Tester

/-! ## agents/transformer.py — candidate selection -/

/-- One candidate record built by `Transformer.perceive`. -/
structure TransformerCandidate where
  file_key : String
  intensity : ℝ
  inhibition : ℝ

namespace Transformer

/-- The preferred/fallback sort key: `(-intensity, file_key)`. -/
def intensityLe (a b : TransformerCandidate) : Prop :=
  b.intensity < a.intensity ∨
    (a.intensity = b.intensity ∧ a.file_key ≤ b.file_key)

/-- The starved-tier sort key: `(inhibition, -intensity, file_key)`. -/
def inhibitionLe (a b : TransformerCandidate) : Prop :=
  a.inhibition < b.inhibition ∨
    (a.inhibition = b.inhibition ∧ intensityLe a b)

noncomputable instance : DecidableRel intensityLe := fun _ _ =>
  Classical.dec _

noncomputable instance : DecidableRel inhibitionLe := fun _ _ =>
  Classical.dec _

/-- The single pass of `Transformer.perceive` over the
`status ∈ {pending, retry}` query result: skip keys with a falsy task
entry, then split into the inhibited and fallback pools, the preferred pool
being the high-intensity part of the fallback pool. -/
noncomputable def candidatePool (statusNs : List (String × StatusEntry))
    (tasksNs : List (String × TaskEntry)) : List TransformerCandidate :=
  (statusNs.filter (fun p =>
      p.2.status == some "pending" || p.2.status == some "retry")).filterMap
    (fun p =>
      match alistFind tasksNs p.1 with
      | none => none
      | some taskEntry =>
          if taskEntry.isEmptyDict then none
          else some (TransformerCandidate.mk p.1 (taskEntry.intensity.getD 0)
            (p.2.inhibition.getD 0)))

/-- `Transformer.perceive`: pick the first non-empty tier — preferred
(uninhibited, intensity above the minimum), fallback (uninhibited), then
starved (inhibited) — and sort it by the tier's key. -/
noncomputable def perceive (intensityMin inhibitionThreshold : ℝ)
    (statusNs : List (String × StatusEntry))
    (tasksNs : List (String × TaskEntry)) : List TransformerCandidate :=
  let pool := candidatePool statusNs tasksNs
  let inhibited := pool.filter (fun c => inhibitionThreshold ≤ c.inhibition)
  let fallback := pool.filter (fun c => c.inhibition < inhibitionThreshold)
  let preferred := fallback.filter (fun c => intensityMin < c.intensity)
  if !preferred.isEmpty then preferred.insertionSort intensityLe
  else if !fallback.isEmpty then fallback.insertionSort intensityLe
  else inhibited.insertionSort inhibitionLe

/-- The file key `Transformer.decide` commits to:
`perception["candidates"][0]`. -/
noncomputable def decideKey (intensityMin inhibitionThreshold : ℝ)
    (statusNs : List (String × StatusEntry))
    (tasksNs : List (String × TaskEntry)) : Option String :=
  (perceive intensityMin inhibitionThreshold statusNs tasksNs).head?.map
    (·.file_key)

end Transformer

/-! ## Operation sequences over the status namespace -/

/-- The store operations that touch the `status` namespace, for stating
invariants over operation sequences. -/
inductive StatusOp
  | write (fileKey : String) (data : StatusEntry) (agentId now : String)
  | update (fileKey : String) (fields : StatusEntry) (agentId now : String)
  | maintain (currentTick : Int) (now : String)
  | inhibitionDecay (now : String)

/-- Apply one status operation to the namespace.  A `ScopeLockError` raised
by `write`/`update` propagates to the caller before any mutation, so the
namespace is unchanged on the error branch. -/
noncomputable def applyStatusOp (g : Guardrails) (inhibitionRate : ℝ)
    (ns : List (String × StatusEntry)) : StatusOp →
    List (String × StatusEntry)
  | .write fileKey data agentId now =>
      (PheromoneStore.status_write g ns fileKey data agentId now).toOption.getD ns
  | .update fileKey fields agentId now =>
      (PheromoneStore.status_update g ns fileKey fields agentId now).toOption.getD ns
  | .maintain currentTick now =>
      (PheromoneStore.maintain_status g currentTick now ns).ns
  | .inhibitionDecay now =>
      (PheromoneStore.apply_decay_inhibition inhibitionRate now ns).1

/-- Apply a sequence of status operations in order. -/
noncomputable def applyStatusOps (g : Guardrails) (inhibitionRate : ℝ)
    (ns : List (String × StatusEntry)) (ops : List StatusOp) :
    List (String × StatusEntry) :=
  ops.foldl (applyStatusOp g inhibitionRate) ns

/-- The observed `retry_count` of a status entry (an absent entry or field
reads as 0, matching `int(entry.get("retry_count", 0))`). -/
def obsRetryCount (ns : List (String × StatusEntry)) (k : String) : Int :=
  ((alistFind ns k).bind (·.retry_count)).getD 0

/-! ## Shared association-list lemmas -/

theorem alistFind_map {α β : Type} (f : α → β) (k : String)
    (ns : List (String × α)) :
    alistFind (ns.map (fun p => (p.1, f p.2))) k = (alistFind ns k).map f := by
  induction ns with
  | nil => rfl
  | cons p ns ih =>
      cases hb : (p.1 == k) with
      | true => simp [alistFind, List.find?_cons_of_pos, hb]
      | false =>
          simp only [List.map_cons]
          rw [alistFind, List.find?_cons_of_neg _ (by simp [hb]),
            alistFind, List.find?_cons_of_neg _ (by simp [hb])] at *
          exact ih

theorem alistFind_append_left {α : Type} (k : String)
    (ns₁ ns₂ : List (String × α)) (h : alistFind ns₁ k = none) :
    alistFind (ns₁ ++ ns₂) k = alistFind ns₂ k := by
  induction ns₁ with
  | nil => rfl
  | cons p ns ih =>
      cases hb : (p.1 == k) with
      | true => simp [alistFind, List.find?_cons_of_pos, hb] at h
      | false =>
          rw [alistFind, List.find?_cons_of_neg _ (by simp [hb])] at h
          rw [List.cons_append, alistFind,
            List.find?_cons_of_neg _ (by simp [hb])]
          exact ih h

theorem alistFind_map_replace {α : Type} (ns : List (String × α))
    (k k' : String) (v : α) (h : k' ≠ k) :
    alistFind (ns.map (fun p => if p.1 == k then (k, v) else p)) k' =
      alistFind ns k' := by
  induction ns with
  | nil => rfl
  | cons p ns ih =>
      simp only [List.map_cons]
      by_cases hpk : p.1 = k
      · rw [if_pos (by simpa using hpk)]
        rw [alistFind, List.find?_cons_of_neg _ (by simp [Ne.symm h]),
          alistFind, List.find?_cons_of_neg _ (by simp [hpk, Ne.symm h])]
        exact ih
      · rw [if_neg (by simpa using hpk)]
        by_cases hpk' : p.1 = k'
        · rw [alistFind, List.find?_cons_of_pos _ (by simpa using hpk'),
            alistFind, List.find?_cons_of_pos _ (by simpa using hpk')]
        · rw [alistFind, List.find?_cons_of_neg _ (by simpa using hpk'),
            alistFind, List.find?_cons_of_neg _ (by simpa using hpk')]
          exact ih

theorem alistFind_map_set {α : Type} (ns : List (String × α)) (k : String)
    (v : α) (h : (ns.find? (fun p => p.1 == k)).isSome) :
    alistFind (ns.map (fun p => if p.1 == k then (k, v) else p)) k =
      some v := by
  induction ns with
  | nil => simp [List.find?] at h
  | cons p ns ih =>
      simp only [List.map_cons]
      by_cases hpk : p.1 = k
      · rw [if_pos (by simpa using hpk)]
        simp [alistFind, List.find?_cons_of_pos]
      · rw [if_neg (by simpa using hpk)]
        rw [List.find?_cons_of_neg _ (by simpa using hpk)] at h
        rw [alistFind, List.find?_cons_of_neg _ (by simpa using hpk)]
        exact ih h

theorem alistFind_insert_self {α : Type} (ns : List (String × α)) (k : String)
    (v : α) : alistFind (alistInsert ns k v) k = some v := by
  unfold alistInsert
  by_cases hf : (ns.find? (fun p => p.1 == k)).isSome
  · rw [if_pos hf]
    exact alistFind_map_set ns k v hf
  · rw [if_neg hf]
    rw [alistFind_append_left k ns _ ?_]
    · simp [alistFind, List.find?]
    · simp only [alistFind]
      rw [Option.not_isSome_iff_eq_none] at hf
      simp [hf]

theorem alistFind_insert_ne {α : Type} (ns : List (String × α))
    (k k' : String) (v : α) (h : k' ≠ k) :
    alistFind (alistInsert ns k v) k' = alistFind ns k' := by
  unfold alistInsert
  by_cases hf : (ns.find? (fun p => p.1 == k)).isSome
  · rw [if_pos hf]
    exact alistFind_map_replace ns k k' v h
  · rw [if_neg hf]
    cases hc : alistFind ns k' with
    | some w =>
        simp only [alistFind] at hc ⊢
        obtain ⟨q, hq1, hq2⟩ := Option.map_eq_some'.mp hc
        rw [List.find?_append, hq1]
        simp [hq2]
    | none =>
        rw [alistFind_append_left k' ns _ hc]
        have hkk : (k == k') = false := beq_eq_false_iff_ne.mpr (Ne.symm h)
        simp [alistFind, List.find?, hkk, hc]

/-! ## Claim C2 — scheduler budget stop condition -/

/-- C2 (code bug): the claim — echoed by the repository's own test
`test_loop_stops_on_cost_budget_exhaustion` — says the loop stops with
`budget_exhausted` when a positive cost budget is exceeded.  At the test's
input (cost budget 0.01, accumulated cost 0.02, 1 token used out of 100000,
no agent acting, nothing terminal) the loop body of `run_loop`, which never
consults `total_cost_usd`, instead stops with `idle_cycles`. -/
theorem c2_cost_budget_ignored :
    run_loop_stop_reason 10 2 100000
        (fun _ => TickObs.mk false false 1 (2/100)) = "idle_cycles" ∧
    run_loop_stop_reason 10 2 100000
        (fun _ => TickObs.mk false false 1 (2/100)) ≠ "budget_exhausted" ∧
    (0 : ℚ) < 1/100 ∧ (1 : ℚ)/100 ≤ 2/100 := by
  refine ⟨by decide, by decide, by norm_num, by norm_num⟩

/-! ## Claim C7 — validator decision rule -/

/-- C7: `Validator.execute` decides on `quality.confidence`:
at least `validator_confidence_high` gives terminal `validated` with the
confidence raised by 0.1 clamped to 1; between the two thresholds gives
`needs_review` with the confidence unchanged; below
`validator_confidence_low` the confidence is lowered by 0.2 floored at 0 and
the file is retried with `retry_count + 1` and `inhibition + 0.5` when
`retry_count + 1 ≤ max_retry_count`, else skipped. -/
theorem c7_validator_decision (th : ValidatorThresholds) (confidence : ℝ)
    (retryCount : Int) (inhibition : ℝ) :
    (th.high ≤ confidence →
      Validator.execute th confidence retryCount inhibition =
        ValidatorDecision.mk "validated" (min 1 (confidence + 1/10))
          retryCount inhibition) ∧
    (confidence < th.high → th.low ≤ confidence →
      Validator.execute th confidence retryCount inhibition =
        ValidatorDecision.mk "needs_review" confidence retryCount
          inhibition) ∧
    (confidence < th.high → confidence < th.low →
      (retryCount + 1 ≤ th.max_retry_count →
        Validator.execute th confidence retryCount inhibition =
          ValidatorDecision.mk "retry" (max 0 (confidence - 2/10))
            (retryCount + 1) (inhibition + 5/10)) ∧
      (th.max_retry_count < retryCount + 1 →
        Validator.execute th confidence retryCount inhibition =
          ValidatorDecision.mk "skipped" (max 0 (confidence - 2/10))
            (retryCount + 1) inhibition)) := by
  refine ⟨fun h => ?_, fun h1 h2 => ?_, fun h1 h2 => ⟨fun h3 => ?_, fun h3 => ?_⟩⟩
  · unfold Validator.execute
    rw [if_pos h]
  · unfold Validator.execute
    rw [if_neg (not_le.mpr h1), if_pos h2]
  · unfold Validator.execute
    rw [if_neg (not_le.mpr h1), if_neg (not_le.mpr h2)]
    simp [h3]
  · unfold Validator.execute
    rw [if_neg (not_le.mpr h1), if_neg (not_le.mpr h2)]
    simp [not_le.mpr h3]

/-! ## Claim C8 — tester per-module confidence -/

/-- C8: when a test module is found, the tester's confidence equals
`tests_passed / tests_total` of the per-module run statistics, the
`tests_total == 0` branch yielding 0.5 (it is unreachable because
`_run_pytest_for_file` normalizes an empty summary to one synthetic
test). -/
theorem c8_tester_pytest_confidence (passed failed errors : Nat)
    (returncodeZero : Bool) :
    Tester.pytest_confidence
        (Tester.run_pytest_for_file passed failed errors returncodeZero) =
      ((Tester.run_pytest_for_file passed failed errors
          returncodeZero).tests_passed : ℚ) /
      ((Tester.run_pytest_for_file passed failed errors
          returncodeZero).tests_total : ℚ) ∧
    ((Tester.run_pytest_for_file passed failed errors
        returncodeZero).tests_total = 0 →
      Tester.pytest_confidence
          (Tester.run_pytest_for_file passed failed errors returncodeZero) =
        1/2) := by
  have htot : (Tester.run_pytest_for_file passed failed errors
      returncodeZero).tests_total ≠ 0 := by
    unfold Tester.run_pytest_for_file Tester.normalizeZeroTotal
      Tester.parse_pytest_summary
    by_cases h : passed + failed + errors = 0
    · cases returncodeZero <;> simp [h]
    · simp [h]
  constructor
  · unfold Tester.pytest_confidence
    rw [if_neg htot]
  · intro h
    exact absurd h htot

/-! ## Claim C3 — query filter operators -/

/-- C3 (counterexample): the claim says a filter whose operator suffix is
not one of eq/gt/gte/lt/lte/in raises a validation error; on the concrete
query filter `intensity__foo = 5`, `_matches_filters` raises nothing and
keeps the entry (every `if` arm falls through). -/
theorem c3_unknown_operator_counterexample :
    PheromoneStore.matches_filters "a.py" [("intensity", Value.num 1)]
      [("intensity__foo", FilterValue.val (Value.num 5))] =
      Except.ok true := by
  rfl

/-- C3 (amended): a filter whose suffix after `__` is not a known operator
is silently ignored — the entry is kept, no error is raised — and a numeric
operator (gt/gte/lt/lte) applied to an entry whose stored field value is not
numeric makes that filter fail closed (the entry is excluded), whatever the
expected value is. -/
theorem c3_filter_semantics (fileKey : String) (entry : JsonEntry)
    (name field op : String) (expected : FilterValue)
    (hparse : PheromoneStore.parse_filter name = (field, op)) :
    (op ≠ "eq" → op ≠ "gt" → op ≠ "gte" → op ≠ "lt" → op ≠ "lte" →
      op ≠ "in" →
      PheromoneStore.matches_filters fileKey entry [(name, expected)] =
        Except.ok true) ∧
    ((op = "gt" ∨ op = "gte" ∨ op = "lt" ∨ op = "lte") →
      PheromoneStore.isNumeric
          (if field = "file_key" then Value.str fileKey
           else (alistFind entry field).getD Value.null) = false →
      PheromoneStore.matches_filters fileKey entry [(name, expected)] =
        Except.ok false) := by
  constructor
  · intro h1 h2 h3 h4 h5 h6
    simp [PheromoneStore.matches_filters, PheromoneStore.matchesOneFilter,
      hparse, h1, h2, h3, h4, h5, h6]
  · intro hop hnum
    have heq : op ≠ "eq" := by
      rcases hop with h | h | h | h <;> simp [h]
    simp [PheromoneStore.matches_filters, PheromoneStore.matchesOneFilter,
      PheromoneStore.compare_numeric, hparse, heq, hop, hnum]

theorem c3_filter_semantics_witness :
    (("foo" : String) ≠ "eq" → ("foo" : String) ≠ "gt" →
      ("foo" : String) ≠ "gte" → ("foo" : String) ≠ "lt" →
      ("foo" : String) ≠ "lte" → ("foo" : String) ≠ "in" →
      PheromoneStore.matches_filters "k.py" [("intensity", Value.str "x")]
        [("intensity__foo", FilterValue.val (Value.num 5))] =
        Except.ok true) ∧
    ((("foo" : String) = "gt" ∨ ("foo" : String) = "gte" ∨
        ("foo" : String) = "lt" ∨ ("foo" : String) = "lte") →
      PheromoneStore.isNumeric
        (if ("intensity" : String) = "file_key" then Value.str "k.py"
         else (alistFind [("intensity", Value.str "x")] "intensity").getD
           Value.null) = false →
      PheromoneStore.matches_filters "k.py" [("intensity", Value.str "x")]
        [("intensity__foo", FilterValue.val (Value.num 5))] =
        Except.ok false) :=
  c3_filter_semantics "k.py" [("intensity", Value.str "x")]
    "intensity__foo" "intensity" "foo" (FilterValue.val (Value.num 5))
    (by rfl)

/-! ## Claim C1 — lock ownership vs status -/

/-- C1 (counterexample): the claim says no stored entry with a terminal
status such as `skipped` ever carries `lock_owner` or `lock_acquired_tick`.
Writing `status = in_progress, retry_count = 4` against
`max_retry_count = 3` (reachable: TTL release increments `retry_count`
without the cap check) acquires the lock first and coerces the status to
`skipped` afterwards, storing a skipped entry that still carries both lock
fields. -/
theorem c1_skipped_lock_counterexample :
    ((PheromoneStore.status_write (Guardrails.mk 3 3) [] "legacy.py"
        { status := some "in_progress", retry_count := some 4 }
        "transformer" "t0").toOption.bind
      (fun ns => alistFind ns "legacy.py")).map
      (fun e => (e.status, e.lock_owner, e.lock_acquired_tick)) =
    some (some "skipped", some "transformer", some 0) := by
  rfl

theorem stamp_trace_lock_fields (e : StatusEntry) (agentId : String)
    (action : TraceAction) (now : String) :
    (Guardrails.stamp_trace e agentId action now).lock_owner = e.lock_owner ∧
    (Guardrails.stamp_trace e agentId action now).lock_acquired_tick =
      e.lock_acquired_tick := by
  cases action <;> simp [Guardrails.stamp_trace]

theorem finalize_lock_fields (g : Guardrails) (prev cand : StatusEntry)
    (agentId : String)
    (hown : cand.lock_owner = none ∨ cand.lock_owner = some agentId) :
    ((PheromoneStore.finalize_status_entry g prev cand
        agentId).lock_owner.isSome ↔ cand.status = some "in_progress") ∧
    ((PheromoneStore.finalize_status_entry g prev cand
        agentId).lock_acquired_tick.isSome ↔
      cand.status = some "in_progress") := by
  unfold PheromoneStore.finalize_status_entry Guardrails.acquire_scope_lock
    Guardrails.release_scope_lock
  by_cases hs : cand.status = some "in_progress"
  · simp [hs]
    constructor <;> split <;> rfl
  · have hb : (cand.status == some "in_progress") = false := by
      simpa using hs
    rcases hown with hown | hown <;>
    · simp [hb, hown, hs]
      constructor <;> split <;> rfl

/-- C1 (amended): for every `write`/`update` to the status namespace whose
candidate entry does not carry a lock owned by a different agent, the stored
entry has `lock_owner` (and `lock_acquired_tick`) set iff the candidate
status — before the retry-limit coercion — is `in_progress`.  In particular
an `in_progress` candidate over the retry cap is stored as `skipped` while
keeping the freshly acquired lock fields. -/
theorem c1_lock_iff_candidate_in_progress (g : Guardrails)
    (ns : List (String × StatusEntry)) (fileKey : String)
    (payload : StatusEntry) (agentId now : String) (action : TraceAction)
    (ns' : List (String × StatusEntry)) (e' : StatusEntry)
    (hok : PheromoneStore.status_put g ns fileKey payload agentId now action =
      .ok ns')
    (hfind : alistFind ns' fileKey = some e')
    (hown : (PheromoneStore.statusCandidate action
        ((alistFind ns fileKey).getD {}) payload).lock_owner = none ∨
      (PheromoneStore.statusCandidate action
        ((alistFind ns fileKey).getD {}) payload).lock_owner = some agentId) :
    (e'.lock_owner.isSome ↔
      (PheromoneStore.statusCandidate action ((alistFind ns fileKey).getD {})
        payload).status = some "in_progress") ∧
    (e'.lock_acquired_tick.isSome ↔
      (PheromoneStore.statusCandidate action ((alistFind ns fileKey).getD {})
        payload).status = some "in_progress") := by
  unfold PheromoneStore.status_put at hok
  by_cases hg : Guardrails.enforce_scope_lock agentId (alistFind ns fileKey) =
      true
  · rw [if_pos hg] at hok
    have hns : alistInsert ns fileKey
        (Guardrails.stamp_trace
          (PheromoneStore.finalize_status_entry g
            ((alistFind ns fileKey).getD {})
            (PheromoneStore.statusCandidate action
              ((alistFind ns fileKey).getD {}) payload) agentId)
          agentId action now) = ns' := Except.ok.inj hok
    rw [← hns, alistFind_insert_self] at hfind
    have he : e' = Guardrails.stamp_trace
        (PheromoneStore.finalize_status_entry g
          ((alistFind ns fileKey).getD {})
          (PheromoneStore.statusCandidate action
            ((alistFind ns fileKey).getD {}) payload) agentId)
        agentId action now := (Option.some.inj hfind).symm
    rw [he]
    have hstamp := stamp_trace_lock_fields
      (PheromoneStore.finalize_status_entry g
        ((alistFind ns fileKey).getD {})
        (PheromoneStore.statusCandidate action
          ((alistFind ns fileKey).getD {}) payload) agentId)
      agentId action now
    rw [hstamp.1, hstamp.2]
    exact finalize_lock_fields g _ _ agentId hown
  · rw [if_neg hg] at hok
    exact absurd hok (by simp)

theorem c1_lock_iff_candidate_in_progress_witness :
    (({ status := some "pending", retry_count := some 0,
        timestamp := some "t0", created_by := some "scout" } :
          StatusEntry).lock_owner.isSome ↔
      (PheromoneStore.statusCandidate .write
        ((alistFind ([] : List (String × StatusEntry)) "a.py").getD {})
        { status := some "pending" }).status = some "in_progress") ∧
    (({ status := some "pending", retry_count := some 0,
        timestamp := some "t0", created_by := some "scout" } :
          StatusEntry).lock_acquired_tick.isSome ↔
      (PheromoneStore.statusCandidate .write
        ((alistFind ([] : List (String × StatusEntry)) "a.py").getD {})
        { status := some "pending" }).status = some "in_progress") :=
  c1_lock_iff_candidate_in_progress (Guardrails.mk 3 3) [] "a.py"
    { status := some "pending" } "scout" "t0" .write
    [("a.py",
      { status := some "pending", retry_count := some 0,
        timestamp := some "t0", created_by := some "scout" })]
    { status := some "pending", retry_count := some 0,
      timestamp := some "t0", created_by := some "scout" }
    (by rfl) (by rfl) (Or.inl rfl)

/-! ## Claim C10 — the retry requeue is a frame-preserving update -/

theorem alistFind_map_key {α β : Type} (f : String → α → β) (k : String)
    (ns : List (String × α)) :
    alistFind (ns.map (fun p => (p.1, f p.1 p.2))) k =
      (alistFind ns k).map (f k) := by
  induction ns with
  | nil => rfl
  | cons p ns ih =>
      by_cases hpk : p.1 = k
      · subst hpk
        rw [List.map_cons, alistFind,
          List.find?_cons_of_pos _ (by simp), alistFind,
          List.find?_cons_of_pos _ (by simp)]
        simp
      · rw [List.map_cons, alistFind,
          List.find?_cons_of_neg _ (by simpa using hpk), alistFind,
          List.find?_cons_of_neg _ (by simpa using hpk)]
        exact ih

theorem map_cond_eq_map_entry {α : Type} (c : α → Bool) (f : α → α)
    (ns : List (String × α)) :
    ns.map (fun p => if c p.2 then (p.1, f p.2) else p) =
      ns.map (fun p => (p.1, if c p.2 then f p.2 else p.2)) := by
  induction ns with
  | nil => rfl
  | cons p ns ih =>
      by_cases hc : c p.2 = true <;> simp [hc, ih]

/-- Key-preserving conditional maps are the identity on lists where the
condition never holds. -/
theorem map_cond_id {α : Type} (c : α → Bool) (f : α → α)
    (l : List (String × α)) (h : ∀ p ∈ l, c p.2 = false) :
    l.map (fun p => if c p.2 then (p.1, f p.2) else p) = l := by
  induction l with
  | nil => rfl
  | cons p l ih =>
      rw [List.map_cons, if_neg (by simp [h p (List.mem_cons_self p l)]),
        ih (fun q hq => h q (List.mem_cons_of_mem p hq))]

/-- The status namespace produced by `maintain_status`, rewritten as one
entry-wise map: the TTL step followed by the requeue step. -/
theorem maintain_status_ns_eq (g : Guardrails) (tick : Int) (now : String)
    (ns : List (String × StatusEntry)) :
    (PheromoneStore.maintain_status g tick now ns).ns =
      ns.map (fun p => (p.1, PheromoneStore.maintainEntry g tick now p.2)) := by
  simp only [PheromoneStore.maintain_status, Guardrails.enforce_scope_lock_ttl]
  rw [map_cond_eq_map_entry PheromoneStore.requeueCond
      (PheromoneStore.requeueEntry now),
    map_cond_eq_map_entry (g.ttlExpired tick) (Guardrails.ttlRelease now),
    List.map_map]
  rfl

/-- C10: a status entry requeued from `retry` to `pending` by
`maintain_status` has exactly `status`, `previous_status`, `timestamp` and
`updated_by` rewritten; every other field — in particular `retry_count` and
`inhibition` — is carried over unchanged. -/
theorem c10_requeue_frame (g : Guardrails) (tick : Int) (now : String)
    (ns : List (String × StatusEntry)) (k : String) (e : StatusEntry)
    (hfind : alistFind ns k = some e)
    (hretry : e.status = some "retry") :
    alistFind (PheromoneStore.maintain_status g tick now ns).ns k =
      some { e with
        status := some "pending"
        previous_status := some "retry"
        timestamp := some now
        updated_by := some "system_retry" } := by
  rw [maintain_status_ns_eq, alistFind_map, hfind]
  have hexp : g.ttlExpired tick e = false := by
    simp [Guardrails.ttlExpired, hretry]
  have hreq : PheromoneStore.requeueCond e = true := by
    simp [PheromoneStore.requeueCond, hretry]
  simp [PheromoneStore.maintainEntry, hexp, hreq,
    PheromoneStore.requeueEntry, hretry]

theorem c10_requeue_frame_witness :
    alistFind (PheromoneStore.maintain_status (Guardrails.mk 3 3) 0 "t1"
        [("a.py",
          { status := some "retry", retry_count := some 2,
            inhibition := some 1 })]).ns "a.py" =
      some { status := some "pending", retry_count := some 2,
             inhibition := some 1, previous_status := some "retry",
             timestamp := some "t1", updated_by := some "system_retry" } :=
  c10_requeue_frame (Guardrails.mk 3 3) 0 "t1"
    [("a.py",
      { status := some "retry", retry_count := some 2,
        inhibition := some 1 })]
    "a.py"
    { status := some "retry", retry_count := some 2, inhibition := some 1 }
    (by rfl) (by rfl)

/-! ## Claim C6 — maintain_status is idempotent at a fixed tick -/

/-- After the TTL step and the requeue step, an entry triggers neither
condition again at the same tick. -/
theorem maintain_entry_stable (g : Guardrails) (tick : Int) (now : String)
    (e : StatusEntry) :
    g.ttlExpired tick (PheromoneStore.maintainEntry g tick now e) = false ∧
    PheromoneStore.requeueCond (PheromoneStore.maintainEntry g tick now e) =
      false := by
  unfold PheromoneStore.maintainEntry
  by_cases h1 : g.ttlExpired tick e = true
  · have hreq : PheromoneStore.requeueCond (Guardrails.ttlRelease now e) =
        false := by
      simp [PheromoneStore.requeueCond, Guardrails.ttlRelease]
    simp only [h1, if_true, hreq, Bool.false_eq_true, if_false]
    simp [Guardrails.ttlExpired, Guardrails.ttlRelease]
  · simp only [h1, Bool.false_eq_true, if_false]
    by_cases h2 : PheromoneStore.requeueCond e = true
    · simp only [h2, if_true]
      constructor
      · simp [Guardrails.ttlExpired, PheromoneStore.requeueEntry]
      · simp [PheromoneStore.requeueCond, PheromoneStore.requeueEntry]
    · simp only [h2, Bool.false_eq_true, if_false]
      exact ⟨Bool.not_eq_true _ |>.mp h1, trivial⟩

/-- C6: running `maintain_status` twice in succession at the same tick
yields the same status namespace as running it once, and the second run
releases nothing, requeues nothing, and emits no audit events. -/
theorem c6_maintain_status_idempotent (g : Guardrails) (tick : Int)
    (now now' : String) (ns : List (String × StatusEntry)) :
    (PheromoneStore.maintain_status g tick now'
        (PheromoneStore.maintain_status g tick now ns).ns).ns =
      (PheromoneStore.maintain_status g tick now ns).ns ∧
    (PheromoneStore.maintain_status g tick now'
        (PheromoneStore.maintain_status g tick now ns).ns).events = [] ∧
    (PheromoneStore.maintain_status g tick now'
        (PheromoneStore.maintain_status g tick now ns).ns).ttl_released =
      [] ∧
    (PheromoneStore.maintain_status g tick now'
        (PheromoneStore.maintain_status g tick now ns).ns).retry_requeued =
      [] := by
  have hstable : ∀ p ∈ (PheromoneStore.maintain_status g tick now ns).ns,
      g.ttlExpired tick p.2 = false ∧
      PheromoneStore.requeueCond p.2 = false := by
    intro p hp
    rw [maintain_status_ns_eq] at hp
    obtain ⟨q, _, hq2⟩ := List.mem_map.mp hp
    rw [← hq2]
    exact maintain_entry_stable g tick now q.2
  set ns1 := (PheromoneStore.maintain_status g tick now ns).ns with hns1
  have hmapTtl : ns1.map (fun p =>
      if g.ttlExpired tick p.2 then (p.1, Guardrails.ttlRelease now' p.2)
      else p) = ns1 :=
    map_cond_id _ _ _ (fun p hp => (hstable p hp).1)
  have hfilTtl : ns1.filter (fun p => g.ttlExpired tick p.2) = [] := by
    rw [List.filter_eq_nil_iff]
    intro p hp
    rw [(hstable p hp).1]
    simp
  have hmapReq : ns1.map (fun p =>
      if PheromoneStore.requeueCond p.2 then
        (p.1, PheromoneStore.requeueEntry now' p.2)
      else p) = ns1 :=
    map_cond_id _ _ _ (fun p hp => (hstable p hp).2)
  have hfilReq : ns1.filter (fun p => PheromoneStore.requeueCond p.2) =
      [] := by
    rw [List.filter_eq_nil_iff]
    intro p hp
    rw [(hstable p hp).2]
    simp
  simp only [PheromoneStore.maintain_status, Guardrails.enforce_scope_lock_ttl]
  simp only [hmapTtl, hfilTtl, hmapReq, hfilReq]
  simp [List.insertionSort]

/-! ## Claim C5 — retry_count never decreases -/

theorem stamp_trace_retry_count (e : StatusEntry) (agentId : String)
    (action : TraceAction) (now : String) :
    (Guardrails.stamp_trace e agentId action now).retry_count =
      e.retry_count := by
  cases action <;> rfl

theorem finalize_retry_count (g : Guardrails) (prev cand : StatusEntry)
    (agentId : String) :
    (PheromoneStore.finalize_status_entry g prev cand agentId).retry_count =
      some (max (prev.retry_count.getD 0)
        (cand.retry_count.getD (prev.retry_count.getD 0))) := by
  simp only [PheromoneStore.finalize_status_entry,
    Guardrails.acquire_scope_lock, Guardrails.release_scope_lock]
  repeat' split
  all_goals rfl

theorem obs_retry_eq_getD (ns : List (String × StatusEntry)) (k : String) :
    ((alistFind ns k).getD {}).retry_count.getD 0 = obsRetryCount ns k := by
  cases h : alistFind ns k <;> simp [obsRetryCount, h]

theorem status_put_retry_mono (g : Guardrails)
    (ns : List (String × StatusEntry)) (fileKey : String)
    (payload : StatusEntry) (agentId now : String) (action : TraceAction)
    (k : String) :
    obsRetryCount ns k ≤
      obsRetryCount ((PheromoneStore.status_put g ns fileKey payload agentId
        now action).toOption.getD ns) k := by
  unfold PheromoneStore.status_put
  by_cases hg : Guardrails.enforce_scope_lock agentId (alistFind ns fileKey) =
      true
  · rw [if_pos hg]
    by_cases hk : k = fileKey
    · subst hk
      show obsRetryCount ns k ≤ obsRetryCount (alistInsert ns k _) k
      unfold obsRetryCount
      rw [alistFind_insert_self]
      rw [Option.some_bind, stamp_trace_retry_count, finalize_retry_count]
      rw [Option.getD_some, obs_retry_eq_getD]
      exact le_max_left _ _
    · show obsRetryCount ns k ≤ obsRetryCount (alistInsert ns fileKey _) k
      unfold obsRetryCount
      rw [alistFind_insert_ne _ _ _ _ hk]
  · rw [if_neg hg]
    exact le_refl _

theorem maintain_entry_retry_mono (g : Guardrails) (tick : Int)
    (now : String) (e : StatusEntry) :
    e.retry_count.getD 0 ≤
      (PheromoneStore.maintainEntry g tick now e).retry_count.getD 0 := by
  unfold PheromoneStore.maintainEntry
  by_cases h1 : g.ttlExpired tick e = true
  · have hreq : PheromoneStore.requeueCond (Guardrails.ttlRelease now e) =
        false := by
      simp [PheromoneStore.requeueCond, Guardrails.ttlRelease]
    simp only [h1, if_true, hreq, Bool.false_eq_true, if_false]
    simp only [Guardrails.ttlRelease, Option.getD_some]
    omega
  · simp only [h1, Bool.false_eq_true, if_false]
    by_cases h2 : PheromoneStore.requeueCond e = true
    · simp [h2, PheromoneStore.requeueEntry]
    · simp [h2]

theorem maintain_retry_mono (g : Guardrails) (tick : Int) (now : String)
    (ns : List (String × StatusEntry)) (k : String) :
    obsRetryCount ns k ≤
      obsRetryCount (PheromoneStore.maintain_status g tick now ns).ns k := by
  rw [maintain_status_ns_eq]
  unfold obsRetryCount
  rw [alistFind_map]
  cases h : alistFind ns k with
  | none => simp
  | some e =>
      simp only [Option.map_some', Option.some_bind]
      exact maintain_entry_retry_mono g tick now e

theorem inhibition_entry_retry_count (rate : ℝ) (now : String)
    (e : StatusEntry) :
    (PheromoneStore.inhibitionEntry rate now e).retry_count =
      e.retry_count := by
  unfold PheromoneStore.inhibitionEntry PheromoneStore.inhibitionStep
  cases h : e.inhibition with
  | none => rfl
  | some v =>
      simp only []
      split
      · rfl
      · split <;> rfl

theorem inhibition_decay_retry_mono (rate : ℝ) (now : String)
    (ns : List (String × StatusEntry)) (k : String) :
    obsRetryCount ns k ≤
      obsRetryCount (PheromoneStore.apply_decay_inhibition rate now ns).1
        k := by
  have hns : (PheromoneStore.apply_decay_inhibition rate now ns).1 =
      ns.map (fun p => (p.1, PheromoneStore.inhibitionEntry rate now p.2)) :=
    rfl
  rw [hns]
  unfold obsRetryCount
  rw [alistFind_map]
  cases h : alistFind ns k with
  | none => simp
  | some e =>
      simp only [Option.map_some', Option.some_bind,
        inhibition_entry_retry_count]
      exact le_refl _

/-- C5: across any sequence of store operations on the status namespace
(`write`, `update`, `maintain_status`, `apply_decay_inhibition`), the
observed `retry_count` of every entry is monotonically non-decreasing. -/
theorem c5_retry_count_monotone (g : Guardrails) (inhibitionRate : ℝ)
    (ops : List StatusOp) (ns : List (String × StatusEntry)) (k : String) :
    obsRetryCount ns k ≤
      obsRetryCount (applyStatusOps g inhibitionRate ns ops) k := by
  induction ops generalizing ns with
  | nil => exact le_refl _
  | cons op ops ih =>
      refine le_trans ?_ (ih (applyStatusOp g inhibitionRate ns op))
      cases op with
      | write fileKey data agentId now =>
          exact status_put_retry_mono g ns fileKey data agentId now .write k
      | update fileKey fields agentId now =>
          exact status_put_retry_mono g ns fileKey fields agentId now
            .update k
      | maintain tick now => exact maintain_retry_mono g tick now ns k
      | inhibitionDecay now =>
          exact inhibition_decay_retry_mono inhibitionRate now ns k

/-! ## Claim C4 — apply_decay("tasks") -/

theorem clamp_unit_nonneg (x : ℝ) : 0 ≤ clamp_unit x :=
  le_max_left 0 _

theorem clamp_unit_le_one (x : ℝ) : clamp_unit x ≤ 1 :=
  max_le zero_le_one (min_le_left 1 x)

theorem clamp_unit_eq_self {x : ℝ} (h0 : 0 ≤ x) (h1 : x ≤ 1) :
    clamp_unit x = x := by
  unfold clamp_unit
  rw [min_eq_right h1, max_eq_right h0]

theorem clamp_unit_mono {a b : ℝ} (h : a ≤ b) :
    clamp_unit a ≤ clamp_unit b :=
  max_le_max (le_refl 0) (min_le_min (le_refl 1) h)

theorem decay_intensity_nonneg (v : ℝ) (decayType : DecayType) (rate : ℝ) :
    0 ≤ decay_intensity v decayType rate := by
  cases decayType <;> exact clamp_unit_nonneg _

theorem decay_intensity_le_one (v : ℝ) (decayType : DecayType) (rate : ℝ) :
    decay_intensity v decayType rate ≤ 1 := by
  cases decayType <;> exact clamp_unit_le_one _

theorem decay_intensity_le (v : ℝ) (decayType : DecayType) (rate : ℝ)
    (h0 : 0 ≤ v) (h1 : v ≤ 1) (hr : 0 ≤ rate) :
    decay_intensity v decayType rate ≤ v := by
  cases decayType with
  | exponential =>
      have hexp : Real.exp (-rate) ≤ 1 := by
        rw [← Real.exp_zero]
        exact Real.exp_le_exp.mpr (neg_nonpos.mpr hr)
      simp only [decay_intensity]
      rw [clamp_unit_eq_self h0 h1]
      calc clamp_unit (v * Real.exp (-rate)) ≤ clamp_unit v :=
            clamp_unit_mono (mul_le_of_le_one_right h0 hexp)
        _ = v := clamp_unit_eq_self h0 h1
  | linear =>
      simp only [decay_intensity]
      rw [clamp_unit_eq_self h0 h1]
      calc clamp_unit (v - rate) ≤ clamp_unit v :=
            clamp_unit_mono (sub_le_self v hr)
        _ = v := clamp_unit_eq_self h0 h1

theorem alistFind_eq_of_mem_nodup {α : Type} (ns : List (String × α))
    (hnd : (ns.map Prod.fst).Nodup) (k : String) (v : α)
    (hmem : (k, v) ∈ ns) : alistFind ns k = some v := by
  induction ns with
  | nil => cases hmem
  | cons q ns ih =>
      rcases List.mem_cons.mp hmem with hq | hq
      · rw [← hq, alistFind, List.find?_cons_of_pos _ (by simp)]
        simp
      · have hk : k ∈ ns.map Prod.fst :=
          List.mem_map.mpr ⟨(k, v), hq, rfl⟩
        have hqk : q.1 ≠ k := by
          intro hcontra
          have := (List.nodup_cons.mp hnd).1
          rw [List.map_cons] at hnd
          exact (List.nodup_cons.mp hnd).1 (hcontra ▸ hk)
        rw [alistFind, List.find?_cons_of_neg _ (by simpa using hqk)]
        exact ih (List.nodup_cons.mp (by simpa using hnd)).2 hq

/-- C4: `apply_decay("tasks")` replaces the intensity of every numeric task
whose status (defaulting to `pending`) is `pending` or `retry` with
`decay_intensity(v, type, rate)`; the decayed value never exceeds the prior
value and both stay in [0, 1] (for the legal intensities of the data model);
tasks in any other status are untouched; and a task whose decayed value
equals its prior value produces no audit event. -/
theorem c4_apply_decay_tasks (decayType : DecayType) (rate : ℝ)
    (now : String) (tasks : List (String × TaskEntry))
    (statusNs : List (String × StatusEntry)) (k : String) (e : TaskEntry)
    (hrate : 0 ≤ rate)
    (hnodup : (tasks.map Prod.fst).Nodup)
    (hfind : alistFind tasks k = some e) :
    (¬(PheromoneStore.statusValueOf statusNs k = "pending" ∨
        PheromoneStore.statusValueOf statusNs k = "retry") →
      alistFind (PheromoneStore.apply_decay decayType rate now tasks
        statusNs).1 k = some e) ∧
    ((PheromoneStore.statusValueOf statusNs k = "pending" ∨
        PheromoneStore.statusValueOf statusNs k = "retry") →
      ∀ v : ℝ, e.intensity = some v →
        ((alistFind (PheromoneStore.apply_decay decayType rate now tasks
            statusNs).1 k).bind (fun t => t.intensity) =
          some (decay_intensity v decayType rate)) ∧
        (0 ≤ v → v ≤ 1 →
          decay_intensity v decayType rate ≤ v ∧
          0 ≤ decay_intensity v decayType rate ∧
          decay_intensity v decayType rate ≤ 1) ∧
        (decay_intensity v decayType rate = v →
          ∀ ev ∈ (PheromoneStore.apply_decay decayType rate now tasks
            statusNs).2, ev.file_key ≠ k)) := by
  have hns : (PheromoneStore.apply_decay decayType rate now tasks
      statusNs).1 = tasks.map (fun p =>
        (p.1, PheromoneStore.decayTaskAt decayType rate now statusNs p.1
          p.2)) := rfl
  constructor
  · intro hst
    rw [hns, alistFind_map_key, hfind, Option.map_some']
    congr 1
    unfold PheromoneStore.decayTaskAt PheromoneStore.decayTaskStep
    rw [if_neg hst]
  · intro hst v hv
    refine ⟨?_, fun h0 h1 => ⟨decay_intensity_le v decayType rate h0 h1 hrate,
      decay_intensity_nonneg v decayType rate,
      decay_intensity_le_one v decayType rate⟩, ?_⟩
    · rw [hns, alistFind_map_key, hfind, Option.map_some', Option.some_bind]
      unfold PheromoneStore.decayTaskAt PheromoneStore.decayTaskStep
      rw [if_pos hst]
      simp only [hv]
      by_cases heq : decay_intensity v decayType rate = v
      · rw [if_pos heq, heq]
        exact hv
      · rw [if_neg heq]
    · intro heq ev hev hk
      have hev2 : ev ∈ (tasks.filter (fun p =>
          (PheromoneStore.decayTaskStep decayType rate now
            (PheromoneStore.statusValueOf statusNs p.1) p.2).2)).map
          (fun p => AuditEvent.mk "system_decay" "tasks" p.1 "update") := hev
      obtain ⟨p, hpf, hmk⟩ := List.mem_map.mp hev2
      obtain ⟨hpmem, hpc⟩ := List.mem_filter.mp hpf
      have hp1 : p.1 = k := by
        rw [← hmk] at hk
        exact hk
      have hpk : (k, p.2) ∈ tasks := by
        rw [← hp1, Prod.mk.eta]
        exact hpmem
      have hpe : p.2 = e := by
        have := alistFind_eq_of_mem_nodup tasks hnodup k p.2 hpk
        rw [hfind] at this
        exact (Option.some.inj this).symm
      rw [hp1, hpe] at hpc
      unfold PheromoneStore.decayTaskStep at hpc
      rw [if_pos hst] at hpc
      simp only [hv] at hpc
      rw [if_pos heq] at hpc
      exact Bool.false_ne_true hpc

theorem c4_apply_decay_tasks_witness :
    (¬(PheromoneStore.statusValueOf ([] : List (String × StatusEntry))
          "a.py" = "pending" ∨
        PheromoneStore.statusValueOf ([] : List (String × StatusEntry))
          "a.py" = "retry") →
      alistFind (PheromoneStore.apply_decay .exponential 0 "t"
        [("a.py", { intensity := some 1 })]
        ([] : List (String × StatusEntry))).1 "a.py" =
        some { intensity := some 1 }) ∧
    ((PheromoneStore.statusValueOf ([] : List (String × StatusEntry))
          "a.py" = "pending" ∨
        PheromoneStore.statusValueOf ([] : List (String × StatusEntry))
          "a.py" = "retry") →
      ∀ v : ℝ, ({ intensity := some 1 } : TaskEntry).intensity = some v →
        ((alistFind (PheromoneStore.apply_decay .exponential 0 "t"
            [("a.py", { intensity := some 1 })]
            ([] : List (String × StatusEntry))).1 "a.py").bind
          (fun t => t.intensity) =
          some (decay_intensity v .exponential 0)) ∧
        (0 ≤ v → v ≤ 1 →
          decay_intensity v DecayType.exponential 0 ≤ v ∧
          0 ≤ decay_intensity v .exponential 0 ∧
          decay_intensity v .exponential 0 ≤ 1) ∧
        (decay_intensity v .exponential 0 = v →
          ∀ ev ∈ (PheromoneStore.apply_decay .exponential 0 "t"
            [("a.py", { intensity := some 1 })]
            ([] : List (String × StatusEntry))).2, ev.file_key ≠ "a.py")) :=
  c4_apply_decay_tasks .exponential 0 "t"
    [("a.py", { intensity := some 1 })] [] "a.py" { intensity := some 1 }
    (le_refl 0) (by simp) (by rfl)

/-! ## Claim C9 — the transformer never selects a task-less file -/

/-- C9: a file key with no entry in the tasks namespace is skipped during
`Transformer.perceive` (whatever its status), so it appears in no tier and
`Transformer.decide` never commits to it: the transformer leaves the file
and its status untouched. -/
theorem c9_transformer_skips_taskless (intensityMin inhibitionThreshold : ℝ)
    (statusNs : List (String × StatusEntry))
    (tasksNs : List (String × TaskEntry)) (k : String)
    (hnone : alistFind tasksNs k = none) :
    (∀ c ∈ Transformer.perceive intensityMin inhibitionThreshold statusNs
        tasksNs, c.file_key ≠ k) ∧
    Transformer.decideKey intensityMin inhibitionThreshold statusNs
        tasksNs ≠ some k := by
  have hpool : ∀ c ∈ Transformer.candidatePool statusNs tasksNs,
      c.file_key ≠ k := by
    intro c hc
    obtain ⟨p, hpmem, hpeq⟩ := List.mem_filterMap.mp hc
    cases hfind : alistFind tasksNs p.1 with
    | none =>
        simp only [hfind] at hpeq
        exact Option.noConfusion hpeq
    | some te =>
        simp only [hfind] at hpeq
        by_cases hemp : te.isEmptyDict = true
        · rw [if_pos hemp] at hpeq
          exact Option.noConfusion hpeq
        · rw [if_neg hemp] at hpeq
          have hc2 := Option.some.inj hpeq
          intro hkk
          rw [← hc2] at hkk
          have hp1 : p.1 = k := hkk
          rw [hp1] at hfind
          rw [hnone] at hfind
          exact Option.noConfusion hfind
  have hall : ∀ c ∈ Transformer.perceive intensityMin inhibitionThreshold
      statusNs tasksNs, c.file_key ≠ k := by
    intro c hc
    simp only [Transformer.perceive] at hc
    split at hc
    · have hc2 := (List.perm_insertionSort _ _).mem_iff.mp hc
      exact hpool c (List.mem_filter.mp (List.mem_filter.mp hc2).1).1
    · split at hc
      · have hc2 := (List.perm_insertionSort _ _).mem_iff.mp hc
        exact hpool c (List.mem_filter.mp hc2).1
      · have hc2 := (List.perm_insertionSort _ _).mem_iff.mp hc
        exact hpool c (List.mem_filter.mp hc2).1
  refine ⟨hall, ?_⟩
  intro hsome
  unfold Transformer.decideKey at hsome
  obtain ⟨c, hc1, hc2⟩ := Option.map_eq_some'.mp hsome
  have hmem : c ∈ Transformer.perceive intensityMin inhibitionThreshold
      statusNs tasksNs :=
    List.mem_of_mem_head? (Option.mem_def.mpr hc1)
  exact hall c hmem hc2

theorem c9_transformer_skips_taskless_witness :
    (∀ c ∈ Transformer.perceive (2/10 : ℝ) (1/10 : ℝ)
        [("a.py", { status := some "pending" })]
        ([] : List (String × TaskEntry)), c.file_key ≠ "a.py") ∧
    Transformer.decideKey (2/10 : ℝ) (1/10 : ℝ)
        [("a.py", { status := some "pending" })]
        ([] : List (String × TaskEntry)) ≠ some "a.py" :=
  c9_transformer_skips_taskless (2/10) (1/10)
    [("a.py", { status := some "pending" })] [] "a.py" (by rfl)

end Stigmergy
